import Mathlib

/-!
Shallow embedding of the Trade Reconstruction & Aggregation Engine of the
solana-tax-analyzer repository (src/src/app/api/analyze/route.ts), together
with theorems settling the frozen claims about it.

Conventions of the embedding:
* JavaScript `number` amounts are modelled as exact rationals (ℚ); raw
  lamport / base-unit integers as ℤ.
* `amountRaw` is a decimal digit string in the source; it is modelled as the
  integer that string denotes.
* JS `Map` objects are modelled as association lists preserving insertion
  order (a JS Map iterates in first-insertion order and `set` on an existing
  key updates in place).
* JS `Set<number>` index sets are modelled as `List Nat` with membership.
* `Array.prototype.sort` is stable (ES2019); it is modelled by
  `List.mergeSort`, which is also stable.
* The `date` field of a trade is the ISO rendering of `blockTime` in the
  source (`""` when blockTime is null); since the rendering is injective and
  monotone on timestamps, the embedding keeps the underlying
  `Option ℤ` timestamp instead of the string.
* `owner` of a token balance entry may be absent (`undefined`) in the
  source; both `undefined` and `""` are falsy there and are treated
  identically, so the embedding uses `""` for an absent owner.
-/

namespace SolanaTax

/-- Wrapped SOL mint address (constant `WSOL_MINT` in the source). -/
def WSOL_MINT : String := "So11111111111111111111111111111111111111112"

/-- Minimum SOL change to consider (constant `MIN_SOL_CHANGE = 0.001`). -/
def MIN_SOL_CHANGE : ℚ := 1/1000

/-- Minimum value filter (constant `MIN_TRADE_VALUE_SOL = 0.01`). -/
def MIN_TRADE_VALUE_SOL : ℚ := 1/100

/-- Stitching window (constant `TIME_WINDOW_SECONDS = 10`). -/
def TIME_WINDOW_SECONDS : ℤ := 10

/-- The single entry of the `KNOWN_ADDRESSES` table in the source. -/
def CASHBACK_ADDRESS : String := "AxiomRXZAq1Jgjj9pHmNqVP7Lhu67wLXZJZbaK87TTSk"

/-- The `KNOWN_ADDRESSES` record: address → label. -/
def KNOWN_ADDRESSES (addr : String) : Option String :=
  if addr = CASHBACK_ADDRESS then some "CASHBACK" else none

/-- JS `Math.round` (round half toward positive infinity). -/
def jsRound (q : ℚ) : ℤ := ⌊q + 1/2⌋

/-- `TokenAmount` of src/src/types/analyze.ts (`amountRaw` kept as ℤ). -/
structure TokenAmount where
  mint : String
  amount : ℚ
  amountRaw : ℤ
  decimals : ℕ
deriving Repr, DecidableEq

/-- The `type` discriminator of a `Trade`. -/
inductive TradeType where
  | swap
  | transfer_in
  | transfer_out
deriving Repr, DecidableEq

/-- `Trade` of src/src/types/analyze.ts.  `fromAmount` / `toAmount` embed the
`from` / `to` fields (`from` is a Lean keyword).  `date` keeps the timestamp
underlying the source's ISO date string (none when blockTime is null). -/
structure Trade where
  signature : String
  blockTime : ℤ
  date : Option ℤ
  type : TradeType
  fromAmount : TokenAmount
  toAmount : TokenAmount
  solscanUrl : String
  involvedAddresses : Option (List String)
deriving Repr, DecidableEq

/-- A `uiTokenAmount` record of a token balance entry (`amount` is the raw
integer string). -/
structure UiTokenAmount where
  amount : ℤ
  decimals : ℕ
deriving Repr, DecidableEq

/-- `TokenBalanceEntry` of the source (route.ts, lines 40-45). -/
structure TokenBalanceEntry where
  accountIndex : ℕ
  mint : String
  owner : String
  uiTokenAmount : Option UiTokenAmount
deriving Repr, DecidableEq

/-- `ParsedTxMeta` of the source (`err` collapsed to its truthiness). -/
structure ParsedTxMeta where
  preBalances : List ℤ
  postBalances : List ℤ
  preTokenBalances : List TokenBalanceEntry
  postTokenBalances : List TokenBalanceEntry
  err : Bool
deriving Repr, DecidableEq

/-- `ParsedTx` of the source; `accountKeys` after `getPubkey` normalization. -/
structure ParsedTx where
  blockTime : Option ℤ
  accountKeys : List String
  meta : Option ParsedTxMeta
deriving Repr, DecidableEq

/-- `parseTokenAmount` of the source: raw integer over `10 ^ decimals`. -/
def parseTokenAmount (amount : ℤ) (decimals : ℕ) : ℚ :=
  (amount : ℚ) / ((10 : ℚ) ^ decimals)

/-- A mint-delta table entry: mint, aggregated ui delta, decimals. -/
abbrev MintDelta := String × ℚ × ℕ

/-- Lookup in a mint-delta table (JS `Map.get`). -/
def mdGet (m : List MintDelta) (mint : String) : Option (ℚ × ℕ) :=
  (m.find? (fun e => e.1 = mint)).map (fun e => e.2)

/-- Add a delta for a mint (JS: `existing.amount += delta` when present,
otherwise `set` appends; decimals of the first insertion are kept). -/
def mdAdd (m : List MintDelta) (mint : String) (delta : ℚ) (decimals : ℕ) :
    List MintDelta :=
  if (m.find? (fun e => e.1 = mint)).isSome then
    m.map (fun e => if e.1 = mint then (e.1, e.2.1 + delta, e.2.2) else e)
  else m ++ [(mint, delta, decimals)]

/-- Remove a mint from the table (JS `Map.delete`). -/
def mdErase (m : List MintDelta) (mint : String) : List MintDelta :=
  m.filter (fun e => ¬ e.1 = mint)

/-- First-occurrence deduplication: the iteration order of a JS `Set` filled
from a list. -/
def insertionDedup : List ℕ → List ℕ
  | [] => []
  | x :: xs => x :: insertionDedup (xs.filter (fun y => ¬ y = x))
termination_by l => l.length
decreasing_by
  simp only [List.length_cons]
  exact Nat.lt_succ_of_le (List.length_filter_le _ xs)

/-- `processTokenChanges` of the source (route.ts, lines 135-165): reconcile
pre/post token balance snapshots per account index and aggregate the deltas
by mint into the running table. -/
def processTokenChanges (pre post : List TokenBalanceEntry)
    (mintDeltas : List MintDelta) : List MintDelta :=
  let allAccountIndices :=
    insertionDedup ((pre ++ post).map (fun t => t.accountIndex))
  allAccountIndices.foldl (fun md accountIndex =>
    let preEntry := pre.find? (fun p => p.accountIndex = accountIndex)
    let postEntry := post.find? (fun p => p.accountIndex = accountIndex)
    let mintOpt : Option String :=
      match postEntry with
      | some e => some e.mint
      | none => preEntry.map (fun e => e.mint)
    match mintOpt with
    | none => md
    | some mint =>
      if mint = "" then md
      else
        let decimals :=
          (((postEntry.bind (fun e => e.uiTokenAmount)).map
              (fun u => u.decimals)).orElse
            (fun _ => (preEntry.bind (fun e => e.uiTokenAmount)).map
              (fun u => u.decimals))).getD 0
        let preAmount :=
          ((preEntry.bind (fun e => e.uiTokenAmount)).map
            (fun u => u.amount)).getD 0
        let postAmount :=
          ((postEntry.bind (fun e => e.uiTokenAmount)).map
            (fun u => u.amount)).getD 0
        let preVal := parseTokenAmount preAmount decimals
        let postVal := parseTokenAmount postAmount decimals
        let delta := postVal - preVal
        if delta = 0 then md else mdAdd md mint delta decimals)
    mintDeltas

/-- The native-bucket step of the extractor (route.ts, lines 174-217):
decide, from the aggregated wrapped-SOL delta and the raw native SOL delta,
which entry (if any) seeds `outs` / `ins`, and drop wrapped SOL from the
token table when it was used.  Returns (outs, ins, remaining mint deltas). -/
def nativeOutsIns (solDelta : ℤ) (solChange : ℚ)
    (mintDeltas : List MintDelta) :
    List TokenAmount × List TokenAmount × List MintDelta :=
  let hasSignificantSolChange := |solChange| > MIN_SOL_CHANGE
  let fallback : List TokenAmount × List TokenAmount × List MintDelta :=
    if hasSignificantSolChange then
      if solChange < -MIN_SOL_CHANGE then
        ([⟨WSOL_MINT, |solChange|, |solDelta|, 9⟩], [], mintDeltas)
      else if solChange > MIN_SOL_CHANGE then
        ([], [⟨WSOL_MINT, solChange, solDelta, 9⟩], mintDeltas)
      else ([], [], mintDeltas)
    else ([], [], mintDeltas)
  match mdGet mintDeltas WSOL_MINT with
  | some wd =>
    if |wd.1| > MIN_SOL_CHANGE then
      if wd.1 < 0 then
        ([⟨WSOL_MINT, |wd.1|, jsRound (|wd.1| * 1000000000), 9⟩], [],
          mdErase mintDeltas WSOL_MINT)
      else
        ([], [⟨WSOL_MINT, wd.1, jsRound (wd.1 * 1000000000), 9⟩],
          mdErase mintDeltas WSOL_MINT)
    else fallback
  | none => fallback

/-- The token loop of the extractor (route.ts, lines 220-229): push every
remaining non-zero mint delta onto `outs` or `ins` in table order. -/
def pushTokenDeltas (start : List TokenAmount × List TokenAmount)
    (mintDeltas : List MintDelta) : List TokenAmount × List TokenAmount :=
  mintDeltas.foldl (fun oi e =>
    let ta : TokenAmount :=
      ⟨e.1, |e.2.1|, jsRound (|e.2.1| * (10 : ℚ) ^ e.2.2), e.2.2⟩
    if e.2.1 < 0 then (oi.1 ++ [ta], oi.2)
    else if e.2.1 > 0 then (oi.1, oi.2 ++ [ta])
    else oi)
    start

/-- The `outs` / `ins` partition computed by `extractTradesFromTx` for one
transaction, given the wallet's index in the account list. -/
def extractCore (wallet : String) (meta : ParsedTxMeta)
    (walletIndex : ℕ) : List TokenAmount × List TokenAmount :=
  let solDelta : ℤ :=
    meta.postBalances.getD walletIndex 0 - meta.preBalances.getD walletIndex 0
  let solChange : ℚ := (solDelta : ℚ) / 1000000000
  let getOwner : TokenBalanceEntry → String := fun t => t.owner
  let preToken := meta.preTokenBalances.filter (fun t => getOwner t = wallet)
  let postToken := meta.postTokenBalances.filter (fun t => getOwner t = wallet)
  let preTokenByIndex := meta.preTokenBalances.filter
    (fun t => t.owner = "" ∧ t.accountIndex = walletIndex)
  let postTokenByIndex := meta.postTokenBalances.filter
    (fun t => t.owner = "" ∧ t.accountIndex = walletIndex)
  let mintDeltas0 := processTokenChanges preToken postToken []
  let mintDeltas1 := processTokenChanges preTokenByIndex postTokenByIndex mintDeltas0
  let (outs0, ins0, mintDeltas2) := nativeOutsIns solDelta solChange mintDeltas1
  pushTokenDeltas (outs0, ins0) mintDeltas2

/-- Placeholder token amount (never observable; used only for `getD`). -/
def junkTokenAmount : TokenAmount := ⟨"", 0, 0, 0⟩

/-- Placeholder trade (never observable; used only for `getD`). -/
def junkTrade : Trade :=
  ⟨"", 0, none, TradeType.swap, junkTokenAmount, junkTokenAmount, "", none⟩

/-- Solscan transaction URL prefix (constant `SOLSCAN_TX`). -/
def SOLSCAN_TX : String := "https://solscan.io/tx/"

/-- The swap trade emitted for pairing index `i` in the swap branch of the
extractor (route.ts, lines 252-261): `outs[i] ?? outs[0]` zipped with
`ins[i] ?? ins[0]`. -/
def mkSwapTrade (sig : String) (blockTime : Option ℤ)
    (involvedAddresses : List String) (outs ins : List TokenAmount)
    (i : ℕ) : Trade :=
  { signature := sig
    blockTime := blockTime.getD 0
    date := blockTime
    type := TradeType.swap
    fromAmount := outs.getD i (outs.getD 0 junkTokenAmount)
    toAmount := ins.getD i (ins.getD 0 junkTokenAmount)
    solscanUrl := SOLSCAN_TX ++ sig
    involvedAddresses := some involvedAddresses }

/-- `extractTradesFromTx` of the source (route.ts, lines 89-293). -/
def extractTradesFromTx (sig : String) (wallet : String)
    (parsed : Option ParsedTx) : List Trade :=
  match parsed with
  | none => []
  | some p =>
    match p.meta with
    | none => []
    | some meta =>
      if meta.err then [] else
      match p.accountKeys.findIdx? (fun k => k = wallet) with
      | none => []
      | some walletIndex =>
        let (outs, ins) := extractCore wallet meta walletIndex
        if outs.length = 0 ∧ ins.length = 0 then [] else
        let involvedAddresses := p.accountKeys.filter (fun addr => ¬ addr = wallet)
        if outs.length > 0 ∧ ins.length > 0 then
          (List.range (max outs.length ins.length)).map
            (mkSwapTrade sig p.blockTime involvedAddresses outs ins)
        else if outs.length > 0 ∧ ins.length = 0 then
          outs.map (fun f =>
            { signature := sig
              blockTime := p.blockTime.getD 0
              date := p.blockTime
              type := TradeType.transfer_out
              fromAmount := f
              toAmount := ⟨"-", 0, 0, 0⟩
              solscanUrl := SOLSCAN_TX ++ sig
              involvedAddresses := some involvedAddresses })
        else if ins.length > 0 ∧ outs.length = 0 then
          ins.map (fun t =>
            { signature := sig
              blockTime := p.blockTime.getD 0
              date := p.blockTime
              type := TradeType.transfer_in
              fromAmount := ⟨"-", 0, 0, 0⟩
              toAmount := t
              solscanUrl := SOLSCAN_TX ++ sig
              involvedAddresses := some involvedAddresses })
        else []

/-- `meetsMinValue` of the source (route.ts, lines 296-309). -/
def meetsMinValue (trade : Trade) : Bool :=
  if trade.fromAmount.mint = WSOL_MINT ∧
      trade.fromAmount.amount ≥ MIN_TRADE_VALUE_SOL then true
  else if trade.toAmount.mint = WSOL_MINT ∧
      trade.toAmount.amount ≥ MIN_TRADE_VALUE_SOL then true
  else if ¬ trade.fromAmount.mint = WSOL_MINT ∧ ¬ trade.toAmount.mint = WSOL_MINT ∧
      ¬ trade.fromAmount.mint = "-" ∧ ¬ trade.toAmount.mint = "-" then true
  else false

/-- The forward scan of the stitcher (route.ts, lines 337-360): starting at
index `j`, look for the first unconsumed `transfer_in` within the time
window of `trade`; an event beyond the window breaks the scan. -/
def findForwardDeposit (sorted : List Trade) (used : List ℕ) (trade : Trade)
    (j : ℕ) : Option ℕ :=
  if j < sorted.length then
    if j ∈ used then findForwardDeposit sorted used trade (j + 1)
    else
      let other := sorted.getD j junkTrade
      if |other.blockTime - trade.blockTime| > TIME_WINDOW_SECONDS then none
      else if other.type = TradeType.transfer_in then some j
      else findForwardDeposit sorted used trade (j + 1)
  else none
termination_by sorted.length - j

/-- The backward scan of the stitcher (route.ts, lines 372-396): scanning
indices `j - 1, j - 2, …, 0`, look for the first unconsumed `transfer_out`
within the time window of `trade`. -/
def findBackwardWithdrawal (sorted : List Trade) (used : List ℕ)
    (trade : Trade) : ℕ → Option ℕ
  | 0 => none
  | j + 1 =>
    if j ∈ used then findBackwardWithdrawal sorted used trade j
    else
      let other := sorted.getD j junkTrade
      if |other.blockTime - trade.blockTime| > TIME_WINDOW_SECONDS then none
      else if other.type = TradeType.transfer_out then some j
      else findBackwardWithdrawal sorted used trade j

/-- The synthetic swap pushed when an outbound transfer `o` is stitched to
an inbound transfer `i` (route.ts, lines 347-355 and 382-390): canonical
signature, time and url come from the outbound leg; `involvedAddresses` is
omitted by the source. -/
def stitchSwap (o i : Trade) : Trade :=
  { signature := o.signature
    blockTime := o.blockTime
    date := o.date
    type := TradeType.swap
    fromAmount := o.fromAmount
    toAmount := i.toAmount
    solscanUrl := o.solscanUrl
    involvedAddresses := none }

/-- The main loop of `combineRelatedTrades` (route.ts, lines 321-407) over
the ascending-sorted list, carrying the consumed-index set and the output
accumulator. -/
def combineLoop (sorted : List Trade) (i : ℕ) (used : List ℕ)
    (result : List Trade) : List Trade :=
  if i < sorted.length then
    if i ∈ used then combineLoop sorted (i + 1) used result
    else
      let trade := sorted.getD i junkTrade
      match trade.type with
      | TradeType.swap =>
        combineLoop sorted (i + 1) (used ++ [i]) (result ++ [trade])
      | TradeType.transfer_out =>
        match findForwardDeposit sorted used trade (i + 1) with
        | some j =>
          let other := sorted.getD j junkTrade
          combineLoop sorted (i + 1) (used ++ [i, j])
            (result ++ [stitchSwap trade other])
        | none =>
          combineLoop sorted (i + 1) (used ++ [i]) (result ++ [trade])
      | TradeType.transfer_in =>
        match findBackwardWithdrawal sorted used trade i with
        | some j =>
          let other := sorted.getD j junkTrade
          combineLoop sorted (i + 1) (used ++ [i, j])
            (result ++ [stitchSwap other trade])
        | none =>
          combineLoop sorted (i + 1) (used ++ [i]) (result ++ [trade])
  else result
termination_by sorted.length - i

/-- `combineRelatedTrades` of the source (route.ts, lines 315-410): sort
ascending by time, stitch, and re-sort descending for presentation. -/
def combineRelatedTrades (trades : List Trade) : List Trade :=
  let sorted := trades.mergeSort (fun a b => a.blockTime ≤ b.blockTime)
  (combineLoop sorted 0 [] []).mergeSort (fun a b => b.blockTime ≤ a.blockTime)

/-- The `type` discriminator of a `TokenTransaction`. -/
inductive TokenTxType where
  | buy
  | sell
deriving Repr, DecidableEq

/-- `TokenTransaction` of src/src/types/analyze.ts. -/
structure TokenTransaction where
  signature : String
  date : Option ℤ
  blockTime : ℤ
  type : TokenTxType
  solAmount : ℚ
  tokenAmount : ℚ
  solscanUrl : String
  solBalanceAfter : Option ℚ
deriving Repr, DecidableEq

/-- The `type` discriminator of a `SolTransaction`. -/
inductive SolTxType where
  | deposit
  | withdrawal
  | cashback
deriving Repr, DecidableEq

/-- `SolTransaction` of src/src/types/analyze.ts. -/
structure SolTransaction where
  signature : String
  date : Option ℤ
  blockTime : ℤ
  type : SolTxType
  amount : ℚ
  solscanUrl : String
  solBalanceAfter : Option ℚ
  label : Option String
  sourceAddress : Option String
deriving Repr, DecidableEq

/-- The `type` discriminator of a `SolMovement`. -/
inductive SolMovementType where
  | swap_buy
  | swap_sell
  | deposit
  | withdrawal
  | cashback
deriving Repr, DecidableEq

/-- The internal `SolMovement` record of `processTrades` (route.ts, lines
432-441): one signed native-SOL balance change. -/
structure SolMovement where
  blockTime : ℤ
  date : Option ℤ
  signature : String
  solscanUrl : String
  change : ℚ
  type : SolMovementType
  tokenMint : Option String
  tokenAmount : Option ℚ
deriving Repr, DecidableEq

/-- `UnifiedTrade` of src/src/types/analyze.ts. -/
structure UnifiedTrade where
  tokenMint : String
  totalSolSpent : ℚ
  totalSolReceived : ℚ
  totalTokensBought : ℚ
  totalTokensSold : ℚ
  tokensRemaining : ℚ
  pnl : ℚ
  pnlPercent : ℚ
  realized : Bool
  transactions : List TokenTransaction
  firstBuyDate : Option ℤ
  lastActivityDate : Option ℤ
deriving Repr, DecidableEq

/-- `ProcessedTrades` of the source (route.ts, lines 413-419). -/
structure ProcessedTrades where
  unifiedTrades : List UnifiedTrade
  solTransactions : List SolTransaction
  totalDeposited : ℚ
  totalWithdrawn : ℚ
  totalCashback : ℚ
deriving Repr, DecidableEq

/-- The mutable state of the classification pass of `processTrades`:
`tokenTrades` (a JS Map in first-insertion order), `solTxs`, and
`allSolMovements`. -/
structure BuildAcc where
  tokenTrades : List (String × List TokenTransaction)
  solTxs : List SolTransaction
  movements : List SolMovement
deriving Repr, DecidableEq

/-- Append a token transaction to its mint's group (JS Map semantics:
update in place when present, append a new key otherwise). -/
def addTokenTx (m : List (String × List TokenTransaction)) (mint : String)
    (tx : TokenTransaction) : List (String × List TokenTransaction) :=
  if (m.find? (fun e => e.1 = mint)).isSome then
    m.map (fun e => if e.1 = mint then (e.1, e.2 ++ [tx]) else e)
  else m ++ [(mint, [tx])]

/-- The known-address scan of `processTrades` (route.ts, lines 489-502 and
528-536): the first involved address present in `KNOWN_ADDRESSES`,
together with its label. -/
def findKnown : List String → Option (String × String)
  | [] => none
  | a :: rest =>
    match KNOWN_ADDRESSES a with
    | some l => some (a, l)
    | none => findKnown rest

/-- One step of the classification pass of `processTrades` (route.ts, lines
445-558). -/
def processTradeStep (acc : BuildAcc) (trade : Trade) : BuildAcc :=
  match trade.type with
  | TradeType.swap =>
    let isBuy := trade.fromAmount.mint = WSOL_MINT ∧
      ¬ trade.toAmount.mint = WSOL_MINT
    let isSell := trade.toAmount.mint = WSOL_MINT ∧
      ¬ trade.fromAmount.mint = WSOL_MINT
    if ¬ isBuy ∧ ¬ isSell then acc
    else
      let d := decide isBuy
      let tokenMint := if d then trade.toAmount.mint else trade.fromAmount.mint
      let solAmount := if d then trade.fromAmount.amount else trade.toAmount.amount
      let tokenAmount := if d then trade.toAmount.amount else trade.fromAmount.amount
      let tx : TokenTransaction :=
        { signature := trade.signature
          date := trade.date
          blockTime := trade.blockTime
          type := if d then TokenTxType.buy else TokenTxType.sell
          solAmount := solAmount
          tokenAmount := tokenAmount
          solscanUrl := trade.solscanUrl
          solBalanceAfter := none }
      { acc with
        tokenTrades := addTokenTx acc.tokenTrades tokenMint tx
        movements := acc.movements ++
          [{ blockTime := trade.blockTime
             date := trade.date
             signature := trade.signature
             solscanUrl := trade.solscanUrl
             change := if d then -solAmount else solAmount
             type := if d then SolMovementType.swap_buy else SolMovementType.swap_sell
             tokenMint := some tokenMint
             tokenAmount := some tokenAmount }] }
  | TradeType.transfer_in =>
    if trade.toAmount.mint = WSOL_MINT then
      let known := findKnown (trade.involvedAddresses.getD [])
      let isCashback := (known.map (fun e => e.2)).getD "" = "CASHBACK"
      let label : Option String :=
        match known with
        | some e => if e.2 = "CASHBACK" then none else some e.2
        | none => none
      let sourceAddress := known.map (fun e => e.1)
      { acc with
        solTxs := acc.solTxs ++
          [{ signature := trade.signature
             date := trade.date
             blockTime := trade.blockTime
             type := if isCashback then SolTxType.cashback else SolTxType.deposit
             amount := trade.toAmount.amount
             solscanUrl := trade.solscanUrl
             solBalanceAfter := none
             label := if isCashback then none else label
             sourceAddress := sourceAddress }]
        movements := acc.movements ++
          [{ blockTime := trade.blockTime
             date := trade.date
             signature := trade.signature
             solscanUrl := trade.solscanUrl
             change := trade.toAmount.amount
             type := if isCashback then SolMovementType.cashback else SolMovementType.deposit
             tokenMint := none
             tokenAmount := none }] }
    else acc
  | TradeType.transfer_out =>
    if trade.fromAmount.mint = WSOL_MINT then
      let known := findKnown (trade.involvedAddresses.getD [])
      let label := known.map (fun e => e.2)
      let sourceAddress := known.map (fun e => e.1)
      { acc with
        solTxs := acc.solTxs ++
          [{ signature := trade.signature
             date := trade.date
             blockTime := trade.blockTime
             type := SolTxType.withdrawal
             amount := trade.fromAmount.amount
             solscanUrl := trade.solscanUrl
             solBalanceAfter := none
             label := label
             sourceAddress := sourceAddress }]
        movements := acc.movements ++
          [{ blockTime := trade.blockTime
             date := trade.date
             signature := trade.signature
             solscanUrl := trade.solscanUrl
             change := -trade.fromAmount.amount
             type := SolMovementType.withdrawal
             tokenMint := none
             tokenAmount := none }] }
    else acc

/-- The classification pass of `processTrades` over the ascending-sorted
trade list. -/
def buildAcc (trades : List Trade) : BuildAcc :=
  (trades.mergeSort (fun a b => a.blockTime ≤ b.blockTime)).foldl
    processTradeStep ⟨[], [], []⟩

/-- The ascending native-SOL movement timeline of `processTrades`
(route.ts, line 562). -/
def solMovementsOf (trades : List Trade) : List SolMovement :=
  (buildAcc trades).movements.mergeSort (fun a b => a.blockTime ≤ b.blockTime)

/-- Set a key in a signature → balance map (JS `Map.set`). -/
def bmSet (m : List (String × ℚ)) (k : String) (v : ℚ) : List (String × ℚ) :=
  if (m.find? (fun e => e.1 = k)).isSome then
    m.map (fun e => if e.1 = k then (e.1, v) else e)
  else m ++ [(k, v)]

/-- Lookup in a signature → balance map (JS `Map.get`). -/
def bmGet (m : List (String × ℚ)) (k : String) : Option ℚ :=
  (m.find? (fun e => e.1 = k)).map (fun e => e.2)

/-- The running-balance fold of `processTrades` (route.ts, lines 564-570):
accumulate the signed changes and record the balance after each movement
under its signature. -/
def buildBalanceMap : List SolMovement → ℚ → List (String × ℚ) →
    List (String × ℚ)
  | [], _, m => m
  | mv :: rest, bal, m =>
    buildBalanceMap rest (bal + mv.change) (bmSet m mv.signature (bal + mv.change))

/-- The `balanceBySignature` map of `processTrades`. -/
def balanceMapOf (trades : List Trade) : List (String × ℚ) :=
  buildBalanceMap (solMovementsOf trades) 0 []

/-- Placeholder token transaction (used only for `getD` on nonempty lists). -/
def junkTokenTx : TokenTransaction :=
  ⟨"", none, 0, TokenTxType.buy, 0, 0, "", none⟩

/-- One iteration of the totals loop of `processTrades` (route.ts, lines
596-604): accumulate (SOL spent, SOL received, tokens bought, tokens sold). -/
def totalsStep (t : ℚ × ℚ × ℚ × ℚ) (tx : TokenTransaction) : ℚ × ℚ × ℚ × ℚ :=
  if tx.type = TokenTxType.buy then
    (t.1 + tx.solAmount, t.2.1, t.2.2.1 + tx.tokenAmount, t.2.2.2)
  else
    (t.1, t.2.1 + tx.solAmount, t.2.2.1, t.2.2.2 + tx.tokenAmount)

/-- The per-token finalization of `processTrades` (route.ts, lines 587-624):
sort the token's transactions ascending, total the buys and sells and derive
PNL, remaining quantity and activity dates. -/
def mkUnified (tokenMint : String) (transactions : List TokenTransaction) :
    UnifiedTrade :=
  let sortedTxs := transactions.mergeSort (fun a b => a.blockTime ≤ b.blockTime)
  let totals : ℚ × ℚ × ℚ × ℚ := sortedTxs.foldl totalsStep (0, 0, 0, 0)
  let totalSolSpent := totals.1
  let totalSolReceived := totals.2.1
  let totalTokensBought := totals.2.2.1
  let totalTokensSold := totals.2.2.2
  let tokensRemaining := totalTokensBought - totalTokensSold
  let pnl := totalSolReceived - totalSolSpent
  let pnlPercent := if totalSolSpent > 0 then pnl / totalSolSpent * 100 else 0
  let realized := tokensRemaining ≤ 0
  { tokenMint := tokenMint
    totalSolSpent := totalSolSpent
    totalSolReceived := totalSolReceived
    totalTokensBought := totalTokensBought
    totalTokensSold := totalTokensSold
    tokensRemaining := max 0 tokensRemaining
    pnl := pnl
    pnlPercent := pnlPercent
    realized := realized
    transactions := sortedTxs
    firstBuyDate :=
      match sortedTxs.find? (fun t => t.type = TokenTxType.buy) with
      | some t => t.date
      | none => (sortedTxs.getD 0 junkTokenTx).date
    lastActivityDate := (sortedTxs.getLastD junkTokenTx).date }

/-- Comparison of two `date` values as the source compares the underlying
ISO strings with `localeCompare` (the empty string for a null timestamp
precedes every rendered date). -/
def dateLe (a b : Option ℤ) : Bool :=
  match a, b with
  | none, _ => true
  | some _, none => false
  | some x, some y => x ≤ y

/-- `processTrades` of the source (route.ts, lines 423-645). -/
def processTrades (trades : List Trade) : ProcessedTrades :=
  let acc := buildAcc trades
  let bmap := balanceMapOf trades
  let solTxs := acc.solTxs.map (fun tx =>
    { tx with solBalanceAfter := bmGet bmap tx.signature })
  let tokenTrades := acc.tokenTrades.map (fun e =>
    (e.1, e.2.map (fun tx =>
      { tx with solBalanceAfter := bmGet bmap tx.signature })))
  let unifiedTrades := tokenTrades.map (fun e => mkUnified e.1 e.2)
  let unifiedSorted := unifiedTrades.mergeSort
    (fun a b => dateLe b.lastActivityDate a.lastActivityDate)
  let solTxsSorted := solTxs.mergeSort (fun a b => b.blockTime ≤ a.blockTime)
  { unifiedTrades := unifiedSorted
    solTransactions := solTxsSorted
    totalDeposited := (solTxsSorted.filter
      (fun t => t.type = SolTxType.deposit)).foldl (fun sum t => sum + t.amount) 0
    totalWithdrawn := (solTxsSorted.filter
      (fun t => t.type = SolTxType.withdrawal)).foldl (fun sum t => sum + t.amount) 0
    totalCashback := (solTxsSorted.filter
      (fun t => t.type = SolTxType.cashback)).foldl (fun sum t => sum + t.amount) 0 }

/-- The per-transaction filter applied in the request handler before
stitching (route.ts, line 751): only trades passing `meetsMinValue` enter
the pipeline. -/
def filteredTrades (extracted : List Trade) : List Trade :=
  extracted.filter meetsMinValue

/-- The engine pipeline of the request handler (route.ts, lines 745-768):
extraction output → value filter → stitching → aggregation. -/
def analyzePipeline (extracted : List Trade) : ProcessedTrades :=
  processTrades (combineRelatedTrades (filteredTrades extracted))

/-! ### Concrete inputs used by witnesses and counterexamples -/

/-- A transaction whose extraction yields two outs and three ins: the wallet
"W" loses 2 SOL (5000000000 → 3000000000 lamports) and 1000 units of token
"A", and gains 5 "X", 7 "Y" and 9 "Z". -/
def pairFillMeta : ParsedTxMeta :=
  { preBalances := [5000000000]
    postBalances := [3000000000]
    preTokenBalances :=
      [ ⟨1, "A", "W", some ⟨1000, 0⟩⟩
      , ⟨2, "X", "W", some ⟨0, 0⟩⟩
      , ⟨3, "Y", "W", some ⟨0, 0⟩⟩
      , ⟨4, "Z", "W", some ⟨0, 0⟩⟩ ]
    postTokenBalances :=
      [ ⟨1, "A", "W", some ⟨0, 0⟩⟩
      , ⟨2, "X", "W", some ⟨5, 0⟩⟩
      , ⟨3, "Y", "W", some ⟨7, 0⟩⟩
      , ⟨4, "Z", "W", some ⟨9, 0⟩⟩ ]
    err := false }

/-- The transaction wrapping `pairFillMeta`. -/
def pairFillTx : ParsedTx :=
  { blockTime := some 50
    accountKeys := ["W", "K1", "K2", "K3", "K4", "K5"]
    meta := some pairFillMeta }

/-- The `outs` list extracted from `pairFillTx` (native leg first). -/
def pairFillOuts : List TokenAmount :=
  [⟨WSOL_MINT, 2, 2000000000, 9⟩, ⟨"A", 1000, 1000, 0⟩]

/-- The `ins` list extracted from `pairFillTx`. -/
def pairFillIns : List TokenAmount :=
  [⟨"X", 5, 5, 0⟩, ⟨"Y", 7, 7, 0⟩, ⟨"Z", 9, 9, 0⟩]

/-- An inbound native transfer of 0.005 SOL (below the 0.01 threshold). -/
def filterExampleLow : Trade :=
  { signature := "fLow", blockTime := 10, date := some 10,
    type := TradeType.transfer_in,
    fromAmount := ⟨"-", 0, 0, 0⟩,
    toAmount := ⟨WSOL_MINT, 1/200, 5000000, 9⟩,
    solscanUrl := "", involvedAddresses := some [] }

/-- An inbound native transfer of 0.02 SOL (above the 0.01 threshold). -/
def filterExampleHigh : Trade :=
  { signature := "fHigh", blockTime := 11, date := some 11,
    type := TradeType.transfer_in,
    fromAmount := ⟨"-", 0, 0, 0⟩,
    toAmount := ⟨WSOL_MINT, 2/100, 20000000, 9⟩,
    solscanUrl := "", involvedAddresses := some [] }

/-- An outbound transfer of one million units of token "T": its opposite
leg is the `"-"` sentinel. -/
def bigTokenTransfer : Trade :=
  { signature := "big", blockTime := 12, date := some 12,
    type := TradeType.transfer_out,
    fromAmount := ⟨"T", 1000000, 1000000, 0⟩,
    toAmount := ⟨"-", 0, 0, 0⟩,
    solscanUrl := "", involvedAddresses := some [] }

/-- The spec's stitching example outbound leg: 5.0 native at t = 100. -/
def stitchOutExample : Trade :=
  { signature := "sigOut", blockTime := 100, date := some 100,
    type := TradeType.transfer_out,
    fromAmount := ⟨WSOL_MINT, 5, 5000000000, 9⟩,
    toAmount := ⟨"-", 0, 0, 0⟩,
    solscanUrl := "uOut", involvedAddresses := some ["K"] }

/-- The spec's stitching example inbound leg: 1000 tokenX at t = 104. -/
def stitchInExample : Trade :=
  { signature := "sigIn", blockTime := 104, date := some 104,
    type := TradeType.transfer_in,
    fromAmount := ⟨"-", 0, 0, 0⟩,
    toAmount := ⟨"X", 1000, 1000, 0⟩,
    solscanUrl := "uIn", involvedAddresses := some ["K"] }

/-- The spec's position example, buy leg: 100 Y for 2.0 native at t = 1. -/
def posBuy : Trade :=
  { signature := "b1", blockTime := 1, date := some 1,
    type := TradeType.swap,
    fromAmount := ⟨WSOL_MINT, 2, 2000000000, 9⟩,
    toAmount := ⟨"Y", 100, 100, 0⟩,
    solscanUrl := "ub", involvedAddresses := some [] }

/-- The spec's position example, sell leg: 100 Y for 3.0 native at t = 2. -/
def posSell : Trade :=
  { signature := "s1", blockTime := 2, date := some 2,
    type := TradeType.swap,
    fromAmount := ⟨"Y", 100, 100, 0⟩,
    toAmount := ⟨WSOL_MINT, 3, 3000000000, 9⟩,
    solscanUrl := "us", involvedAddresses := some [] }

/-- The position produced for token "Y" by the example round trip. -/
def posUnified : UnifiedTrade :=
  { tokenMint := "Y"
    totalSolSpent := 2
    totalSolReceived := 3
    totalTokensBought := 100
    totalTokensSold := 100
    tokensRemaining := 0
    pnl := 1
    pnlPercent := 50
    realized := true
    transactions :=
      [ ⟨"b1", some 1, 1, TokenTxType.buy, 2, 100, "ub", some (-2)⟩
      , ⟨"s1", some 2, 2, TokenTxType.sell, 3, 100, "us", some 1⟩ ]
    firstBuyDate := some 1
    lastActivityDate := some 2 }

/-- An inbound native transfer of 7 SOL from the cashback address. -/
def cashbackTrade : Trade :=
  { signature := "cb", blockTime := 20, date := some 20,
    type := TradeType.transfer_in,
    fromAmount := ⟨"-", 0, 0, 0⟩,
    toAmount := ⟨WSOL_MINT, 7, 7000000000, 9⟩,
    solscanUrl := "ucb", involvedAddresses := some [CASHBACK_ADDRESS] }

/-- Placeholder movement (used only for `getD` on nonempty lists). -/
def junkMovement : SolMovement :=
  ⟨0, none, "", "", 0, SolMovementType.deposit, none, none⟩

/-- Placeholder position (used only for `getD` on nonempty lists). -/
def junkUnified : UnifiedTrade :=
  ⟨"", 0, 0, 0, 0, 0, 0, 0, false, [], none, none⟩

/-- First leg of a multi-hop swap sharing signature "s": 1 SOL → 10 A. -/
def dupSwapA : Trade :=
  { signature := "s", blockTime := 1, date := some 1,
    type := TradeType.swap,
    fromAmount := ⟨WSOL_MINT, 1, 1000000000, 9⟩,
    toAmount := ⟨"A", 10, 10, 0⟩,
    solscanUrl := "u", involvedAddresses := some [] }

/-- Second leg of the same multi-hop swap, same signature "s": 1 SOL → 20 B. -/
def dupSwapB : Trade :=
  { signature := "s", blockTime := 1, date := some 1,
    type := TradeType.swap,
    fromAmount := ⟨WSOL_MINT, 1, 1000000000, 9⟩,
    toAmount := ⟨"B", 20, 20, 0⟩,
    solscanUrl := "u", involvedAddresses := some [] }

/-- A single native deposit of 3 SOL with signature "d1". -/
def wDeposit : Trade :=
  { signature := "d1", blockTime := 5, date := some 5,
    type := TradeType.transfer_in,
    fromAmount := ⟨"-", 0, 0, 0⟩,
    toAmount := ⟨WSOL_MINT, 3, 3000000000, 9⟩,
    solscanUrl := "ud", involvedAddresses := some [] }

set_option maxRecDepth 4000 in
/-- Evaluation of the extractor's partition on `pairFillTx`. -/
theorem pairFill_core : extractCore "W" pairFillMeta 0 = (pairFillOuts, pairFillIns) := by
  simp [extractCore, pairFillMeta, processTokenChanges,
    insertionDedup, parseTokenAmount, nativeOutsIns, pushTokenDeltas,
    mdGet, mdAdd, mdErase, MIN_SOL_CHANGE, WSOL_MINT, jsRound,
    pairFillOuts, pairFillIns]
  norm_num [Int.floor_eq_iff]

set_option maxRecDepth 4000 in
/-- Evaluation of the extractor's classification on `pairFillTx`. -/
theorem pairFill_trades : extractTradesFromTx "sg" "W" (some pairFillTx) =
    (List.range 3).map
      (mkSwapTrade "sg" (some 50) ["K1", "K2", "K3", "K4", "K5"]
        pairFillOuts pairFillIns) := by
  simp [extractTradesFromTx, pairFillTx, pairFill_core, pairFillOuts, pairFillIns,
    show pairFillMeta.err = false from rfl]

/-! ### Claim theorems -/

/-- C1, counterexample.  The claim states that a length mismatch between
`outs` and `ins` is filled by repeating the shorter list's LAST element.  On
`pairFillTx` the extractor finds `outs = [native 2.0, A 1000]` (two entries,
last = the "A" leg) and three ins, so the claim predicts the third swap's
`from` to be the "A" leg; the code (`outs[i] ?? outs[0]`) instead repeats
the FIRST out, the native leg. -/
theorem extractor_pair_fill_counterexample :
    extractCore "W" pairFillMeta 0 = (pairFillOuts, pairFillIns)
    ∧ pairFillOuts.length = 2 ∧ pairFillIns.length = 3
    ∧ (extractTradesFromTx "sg" "W" (some pairFillTx)).length = 3
    ∧ ((extractTradesFromTx "sg" "W" (some pairFillTx)).getD 2 junkTrade).fromAmount =
        pairFillOuts.getD 0 junkTokenAmount
    ∧ ¬ ((extractTradesFromTx "sg" "W" (some pairFillTx)).getD 2 junkTrade).fromAmount =
        pairFillOuts.getD 1 junkTokenAmount := by
  refine ⟨pairFill_core, rfl, rfl, ?_, ?_, ?_⟩ <;>
    simp [pairFill_trades, List.range, List.range.loop, mkSwapTrade,
      pairFillOuts, pairFillIns, junkTokenAmount, WSOL_MINT]

/-- C1 (amended): when the extractor finds both a non-empty `outs` and a
non-empty `ins` list, it emits exactly `max |outs| |ins|` swap events,
pairwise zipping `outs` with `ins` and repeating the shorter list's FIRST
element for any length mismatch. -/
theorem extractor_swap_pairing (sig wallet : String) (p : ParsedTx)
    (meta : ParsedTxMeta) (walletIndex : ℕ) (outs ins : List TokenAmount)
    (hmeta : p.meta = some meta) (herr : meta.err = false)
    (hidx : p.accountKeys.findIdx? (fun k => k = wallet) = some walletIndex)
    (hcore : extractCore wallet meta walletIndex = (outs, ins))
    (houts : outs.length > 0) (hins : ins.length > 0) :
    (extractTradesFromTx sig wallet (some p)).length =
        max outs.length ins.length
    ∧ ∀ i < max outs.length ins.length,
        ((extractTradesFromTx sig wallet (some p)).getD i junkTrade).type =
            TradeType.swap
        ∧ ((extractTradesFromTx sig wallet (some p)).getD i junkTrade).fromAmount =
            (if i < outs.length then outs.getD i junkTokenAmount
             else outs.getD 0 junkTokenAmount)
        ∧ ((extractTradesFromTx sig wallet (some p)).getD i junkTrade).toAmount =
            (if i < ins.length then ins.getD i junkTokenAmount
             else ins.getD 0 junkTokenAmount) := by
  have hres : extractTradesFromTx sig wallet (some p) =
      (List.range (max outs.length ins.length)).map
        (mkSwapTrade sig p.blockTime
          (p.accountKeys.filter (fun addr => ¬ addr = wallet)) outs ins) := by
    unfold extractTradesFromTx
    simp only [hmeta, herr, hidx, hcore]
    have h1 : ¬ (outs.length = 0 ∧ ins.length = 0) := by omega
    have h2 : outs.length > 0 ∧ ins.length > 0 := ⟨houts, hins⟩
    simp [h1, h2]
  have hfill : ∀ (l : List TokenAmount) (i : ℕ),
      l.getD i (l.getD 0 junkTokenAmount) =
        if i < l.length then l.getD i junkTokenAmount
        else l.getD 0 junkTokenAmount := by
    intro l i
    by_cases h : i < l.length
    · rw [if_pos h, List.getD_eq_getElem l _ h, List.getD_eq_getElem l _ h]
    · rw [if_neg h, List.getD_eq_default l _ (Nat.le_of_not_lt h)]
  have hget : ∀ i, i < max outs.length ins.length →
      (extractTradesFromTx sig wallet (some p)).getD i junkTrade =
        mkSwapTrade sig p.blockTime
          (p.accountKeys.filter (fun addr => ¬ addr = wallet)) outs ins i := by
    intro i hi
    rw [hres, List.getD, List.get?_eq_getElem?, List.getElem?_map,
      List.getElem?_range hi]
    rfl
  constructor
  · rw [hres]; simp
  · intro i hi
    rw [hget i hi, mkSwapTrade]
    exact ⟨rfl, hfill outs i, hfill ins i⟩

/-- C1, witness: the amended pairing law applied to the concrete
transaction `pairFillTx`. -/
theorem extractor_swap_pairing_witness :
    (extractTradesFromTx "sg" "W" (some pairFillTx)).length = 3
    ∧ ((extractTradesFromTx "sg" "W" (some pairFillTx)).getD 2 junkTrade).fromAmount =
        pairFillOuts.getD 0 junkTokenAmount := by
  have h := extractor_swap_pairing "sg" "W" pairFillTx pairFillMeta 0
    pairFillOuts pairFillIns rfl rfl (by simp [pairFillTx]) pairFill_core
    (by simp [pairFillOuts]) (by simp [pairFillIns])
  refine ⟨by simpa [pairFillOuts, pairFillIns] using h.1, ?_⟩
  have h2 := (h.2 2 (by simp [pairFillOuts, pairFillIns])).2.1
  simpa [pairFillOuts, pairFillIns] using h2

/-- C3: an event with exactly one native-currency leg is kept by the value
filter iff that leg's amount reaches the minimum-value threshold, and a
swap between two genuine non-native tokens is always kept. -/
theorem value_filter_spec (t : Trade) :
    (t.fromAmount.mint = WSOL_MINT → ¬ t.toAmount.mint = WSOL_MINT →
      (meetsMinValue t = true ↔ t.fromAmount.amount ≥ MIN_TRADE_VALUE_SOL))
    ∧ (t.toAmount.mint = WSOL_MINT → ¬ t.fromAmount.mint = WSOL_MINT →
      (meetsMinValue t = true ↔ t.toAmount.amount ≥ MIN_TRADE_VALUE_SOL))
    ∧ (¬ t.fromAmount.mint = WSOL_MINT → ¬ t.toAmount.mint = WSOL_MINT →
      ¬ t.fromAmount.mint = "-" → ¬ t.toAmount.mint = "-" →
      meetsMinValue t = true) := by
  unfold meetsMinValue
  refine ⟨?_, ?_, ?_⟩ <;> intros <;> split_ifs <;> simp_all

/-- C3, witness: the spec's filter example, 0.005 dropped and 0.02 kept. -/
theorem value_filter_spec_witness :
    meetsMinValue filterExampleLow = false
    ∧ meetsMinValue filterExampleHigh = true := by
  constructor
  · have h := (value_filter_spec filterExampleLow).2.1 rfl
      (by simp [filterExampleLow, WSOL_MINT])
    have hlt : ¬ (filterExampleLow.toAmount.amount ≥ MIN_TRADE_VALUE_SOL) := by
      norm_num [filterExampleLow, MIN_TRADE_VALUE_SOL]
    simpa [hlt] using (Bool.not_eq_true _).mp (fun htr => hlt (h.mp htr))
  · have h := (value_filter_spec filterExampleHigh).2.1 rfl
      (by simp [filterExampleHigh, WSOL_MINT])
    exact h.mpr (by norm_num [filterExampleHigh, MIN_TRADE_VALUE_SOL])

/-- C10: a transfer whose moved asset is a non-native token (its opposite
leg is the `"-"` sentinel) is always rejected by the value filter, no
matter how large the token amount is, so it never enters the stitching or
aggregation stages (whose input is `filteredTrades`). -/
theorem token_transfer_never_passes (t : Trade) (extracted : List Trade) :
    (t.toAmount.mint = "-" → ¬ t.fromAmount.mint = WSOL_MINT →
      meetsMinValue t = false ∧ t ∉ filteredTrades extracted)
    ∧ (t.fromAmount.mint = "-" → ¬ t.toAmount.mint = WSOL_MINT →
      meetsMinValue t = false ∧ t ∉ filteredTrades extracted) := by
  have hwsol : ¬ ("-" : String) = WSOL_MINT := by simp [WSOL_MINT]
  constructor
  · intro hto hfrom
    have hm : meetsMinValue t = false := by
      unfold meetsMinValue
      split_ifs <;> simp_all
    refine ⟨hm, ?_⟩
    intro hmem
    rw [filteredTrades, List.mem_filter, hm] at hmem
    exact Bool.false_ne_true hmem.2
  · intro hfrom hto
    have hm : meetsMinValue t = false := by
      unfold meetsMinValue
      split_ifs <;> simp_all
    refine ⟨hm, ?_⟩
    intro hmem
    rw [filteredTrades, List.mem_filter, hm] at hmem
    exact Bool.false_ne_true hmem.2

/-- C10, witness: a million-unit token transfer is filtered out and does
not reach the pipeline even when it is the only extracted trade. -/
theorem token_transfer_never_passes_witness :
    meetsMinValue bigTokenTransfer = false
    ∧ bigTokenTransfer ∉ filteredTrades [bigTokenTransfer] := by
  exact (token_transfer_never_passes bigTokenTransfer [bigTokenTransfer]).1
    rfl (by simp [bigTokenTransfer, WSOL_MINT])

set_option maxRecDepth 4000 in
/-- C4: on the spec's example (TransferOut of 5.0 native at t = 100 and
TransferIn of 1000 tokenX at t = 104, window 10 s) the stitcher emits
exactly one swap, whose `from` is the 5.0 native leg, whose `to` is the
1000 tokenX leg, carrying the TransferOut's signature, timestamp and url,
and no leftover transfer events. -/
theorem stitcher_example :
    combineRelatedTrades [stitchOutExample, stitchInExample] =
      [{ signature := "sigOut", blockTime := 100, date := some 100,
         type := TradeType.swap,
         fromAmount := ⟨WSOL_MINT, 5, 5000000000, 9⟩,
         toAmount := ⟨"X", 1000, 1000, 0⟩,
         solscanUrl := "uOut", involvedAddresses := none }] := by
  simp [combineRelatedTrades, combineLoop, findForwardDeposit,
    findBackwardWithdrawal, stitchSwap, stitchOutExample, stitchInExample,
    junkTrade, junkTokenAmount, List.mergeSort, TIME_WINDOW_SECONDS, WSOL_MINT]

/-- C8: the wrapped-SOL delta is used as the native-currency delta (same
`WSOL_MINT` bucket, wrapped SOL removed from the token table) when its
magnitude exceeds `MIN_SOL_CHANGE`; otherwise the raw native SOL delta is
used, and only when its own magnitude exceeds `MIN_SOL_CHANGE`. -/
theorem wsol_native_selection (solDelta : ℤ) (solChange : ℚ)
    (mintDeltas : List MintDelta) :
    (∀ w d, mdGet mintDeltas WSOL_MINT = some (w, d) → |w| > MIN_SOL_CHANGE →
      nativeOutsIns solDelta solChange mintDeltas =
        (if w < 0 then
          ([⟨WSOL_MINT, |w|, jsRound (|w| * 1000000000), 9⟩], [],
            mdErase mintDeltas WSOL_MINT)
         else
          ([], [⟨WSOL_MINT, w, jsRound (w * 1000000000), 9⟩],
            mdErase mintDeltas WSOL_MINT)))
    ∧ ((mdGet mintDeltas WSOL_MINT = none ∨
        (∃ w d, mdGet mintDeltas WSOL_MINT = some (w, d) ∧ |w| ≤ MIN_SOL_CHANGE)) →
      (|solChange| > MIN_SOL_CHANGE →
        nativeOutsIns solDelta solChange mintDeltas =
          (if solChange < 0 then
            ([⟨WSOL_MINT, |solChange|, |solDelta|, 9⟩], [], mintDeltas)
           else
            ([], [⟨WSOL_MINT, solChange, solDelta, 9⟩], mintDeltas)))
      ∧ (|solChange| ≤ MIN_SOL_CHANGE →
        nativeOutsIns solDelta solChange mintDeltas = ([], [], mintDeltas))) := by
  have hMIN : (0 : ℚ) < MIN_SOL_CHANGE := by norm_num [MIN_SOL_CHANGE]
  constructor
  · intro w d hget habs
    unfold nativeOutsIns
    rw [hget]
    simp only [if_pos habs]
  · intro hfall
    have hfb : nativeOutsIns solDelta solChange mintDeltas =
        (if |solChange| > MIN_SOL_CHANGE then
          if solChange < -MIN_SOL_CHANGE then
            ([⟨WSOL_MINT, |solChange|, |solDelta|, 9⟩], [], mintDeltas)
          else if solChange > MIN_SOL_CHANGE then
            ([], [⟨WSOL_MINT, solChange, solDelta, 9⟩], mintDeltas)
          else ([], [], mintDeltas)
         else ([], [], mintDeltas)) := by
      rcases hfall with hnone | ⟨w, d, hget, hsmall⟩
      · unfold nativeOutsIns
        rw [hnone]
      · unfold nativeOutsIns
        rw [hget]
        simp only [if_neg (not_lt.mpr hsmall)]
    constructor
    · intro hbig
      rw [hfb, if_pos hbig]
      by_cases hneg : solChange < 0
      · have h1 : solChange < -MIN_SOL_CHANGE := by
          rcases abs_cases solChange with ⟨heq, _⟩ | ⟨heq, _⟩ <;> rw [heq] at hbig <;>
            [linarith; linarith]
        rw [if_pos h1, if_pos hneg]
      · have h2 : ¬ solChange < -MIN_SOL_CHANGE := by
          push_neg at hneg ⊢
          linarith
        have h3 : solChange > MIN_SOL_CHANGE := by
          push_neg at hneg
          rcases abs_cases solChange with ⟨heq, _⟩ | ⟨heq, _⟩ <;> rw [heq] at hbig <;>
            linarith
        rw [if_neg h2, if_pos h3, if_neg hneg]
    · intro hsm
      rw [hfb, if_neg (not_lt.mpr hsm)]

/-- C8, witness: a wrapped-SOL delta of +2 SOL overrides a raw native delta
of -3 SOL, while with only the raw native delta of -3 SOL the native leg is
the 3 SOL out. -/
theorem wsol_native_selection_witness :
    nativeOutsIns (-3000000000) (-3) [(WSOL_MINT, 2, 9)] =
      ([], [⟨WSOL_MINT, 2, 2000000000, 9⟩], [])
    ∧ nativeOutsIns (-3000000000) (-3) [] =
      ([⟨WSOL_MINT, 3, 3000000000, 9⟩], [], []) := by
  constructor
  · have h := (wsol_native_selection (-3000000000) (-3) [(WSOL_MINT, 2, 9)]).1
      2 9 (by simp [mdGet]) (by norm_num [MIN_SOL_CHANGE])
    rw [h, if_neg (by norm_num)]
    norm_num [jsRound, mdErase, WSOL_MINT]
  · have h := ((wsol_native_selection (-3000000000) (-3) []).2
      (Or.inl (by simp [mdGet]))).1 (by norm_num [MIN_SOL_CHANGE])
    rw [h, if_pos (by norm_num)]
    norm_num

/-- Every output position is the finalization of some transaction group. -/
theorem unified_mem (trades : List Trade) (u : UnifiedTrade)
    (hu : u ∈ (processTrades trades).unifiedTrades) :
    ∃ mint txs, u = mkUnified mint txs := by
  simp only [processTrades] at hu
  rw [List.Perm.mem_iff (List.mergeSort_perm _ _), List.mem_map] at hu
  obtain ⟨e, _, heq⟩ := hu
  exact ⟨e.1, e.2, heq.symm⟩

/-- The totals loop accumulates exactly the sums of the buy legs' and sell
legs' SOL and token amounts. -/
theorem totals_foldl (l : List TokenTransaction) (a b c d : ℚ) :
    l.foldl totalsStep (a, b, c, d) =
      (a + ((l.filter (fun t => t.type = TokenTxType.buy)).map
          (fun t => t.solAmount)).sum,
       b + ((l.filter (fun t => t.type = TokenTxType.sell)).map
          (fun t => t.solAmount)).sum,
       c + ((l.filter (fun t => t.type = TokenTxType.buy)).map
          (fun t => t.tokenAmount)).sum,
       d + ((l.filter (fun t => t.type = TokenTxType.sell)).map
          (fun t => t.tokenAmount)).sum) := by
  induction l generalizing a b c d with
  | nil => simp
  | cons tx rest ih =>
    cases htx : tx.type with
    | buy => simp [totalsStep, htx, ih, add_assoc]
    | sell => simp [totalsStep, htx, ih, add_assoc]

/-- C5: every output position satisfies
`remainingQuantity = max 0 (acquired - disposed)`,
`isFullyClosed ↔ remainingQuantity = 0`, and
`pnlPercent = pnl / spent * 100` when `spent > 0`, else `0`. -/
theorem position_invariants (trades : List Trade) (u : UnifiedTrade)
    (hu : u ∈ (processTrades trades).unifiedTrades) :
    u.tokensRemaining = max 0 (u.totalTokensBought - u.totalTokensSold)
    ∧ (u.realized = true ↔ u.tokensRemaining = 0)
    ∧ u.pnlPercent =
        (if u.totalSolSpent > 0 then u.pnl / u.totalSolSpent * 100 else 0) := by
  obtain ⟨mint, txs, rfl⟩ := unified_mem trades u hu
  refine ⟨rfl, ?_, rfl⟩
  show decide (_ - _ ≤ 0) = true ↔ max 0 (_ - _) = 0
  rw [decide_eq_true_eq, max_eq_left_iff]

/-- C7: for every output position, `totalSpent` is the sum of its buy legs'
native amounts, `totalReceived` the sum of its sell legs' native amounts,
and `realizedPnl = totalReceived - totalSpent` exactly. -/
theorem round_trip_totals (trades : List Trade) (u : UnifiedTrade)
    (hu : u ∈ (processTrades trades).unifiedTrades) :
    u.totalSolSpent = ((u.transactions.filter
        (fun t => t.type = TokenTxType.buy)).map (fun t => t.solAmount)).sum
    ∧ u.totalSolReceived = ((u.transactions.filter
        (fun t => t.type = TokenTxType.sell)).map (fun t => t.solAmount)).sum
    ∧ u.pnl = u.totalSolReceived - u.totalSolSpent := by
  obtain ⟨mint, txs, rfl⟩ := unified_mem trades u hu
  show (List.foldl totalsStep (0, 0, 0, 0) _).1 = _
    ∧ (List.foldl totalsStep (0, 0, 0, 0) _).2.1 = _
    ∧ _
  rw [totals_foldl]
  exact ⟨by simp [mkUnified], by simp [mkUnified], rfl⟩

set_option maxRecDepth 8000 in
/-- Evaluation of the aggregator on the example round trip. -/
theorem posEval : (processTrades [posBuy, posSell]).unifiedTrades = [posUnified] := by
  simp [processTrades, buildAcc, processTradeStep, addTokenTx, findKnown,
    KNOWN_ADDRESSES, solMovementsOf, balanceMapOf, buildBalanceMap, bmSet,
    bmGet, mkUnified, totalsStep, dateLe, List.mergeSort, WSOL_MINT,
    posBuy, posSell, posUnified, junkTokenTx]
  norm_num

/-- C5, witness: the position invariants applied to the example round trip
(100 Y bought for 2.0 native, then sold for 3.0 native). -/
theorem position_invariants_witness :
    posUnified.tokensRemaining =
        max 0 (posUnified.totalTokensBought - posUnified.totalTokensSold)
    ∧ (posUnified.realized = true ↔ posUnified.tokensRemaining = 0)
    ∧ posUnified.pnlPercent =
        (if posUnified.totalSolSpent > 0 then
          posUnified.pnl / posUnified.totalSolSpent * 100 else 0) :=
  position_invariants [posBuy, posSell] posUnified (by rw [posEval]; simp)

/-- C7, witness: the round-trip totals applied to the example round trip;
spent 2.0, received 3.0, realized profit exactly 1.0. -/
theorem round_trip_totals_witness :
    posUnified.totalSolSpent = ((posUnified.transactions.filter
        (fun t => t.type = TokenTxType.buy)).map (fun t => t.solAmount)).sum
    ∧ posUnified.totalSolReceived = ((posUnified.transactions.filter
        (fun t => t.type = TokenTxType.sell)).map (fun t => t.solAmount)).sum
    ∧ posUnified.pnl = posUnified.totalSolReceived - posUnified.totalSolSpent :=
  round_trip_totals [posBuy, posSell] posUnified (by rw [posEval]; simp)

/-- With the source's single-entry known-address table, the first known
involved address is the cashback address iff the cashback address occurs. -/
theorem findKnown_singleton (addrs : List String) :
    findKnown addrs =
      (if CASHBACK_ADDRESS ∈ addrs then some (CASHBACK_ADDRESS, "CASHBACK")
       else none) := by
  induction addrs with
  | nil => simp [findKnown]
  | cons a rest ih =>
    by_cases ha : a = CASHBACK_ADDRESS
    · subst ha
      simp [findKnown, KNOWN_ADDRESSES]
    · simp [findKnown, KNOWN_ADDRESSES, ha, ih, List.mem_cons,
        Ne.symm ha]

/-- The classification step only appends to the `solTxs` accumulator. -/
theorem mem_solTxs_step (acc : BuildAcc) (t : Trade) (s : SolTransaction)
    (hs : s ∈ acc.solTxs) : s ∈ (processTradeStep acc t).solTxs := by
  unfold processTradeStep
  cases t.type <;> dsimp only <;> split_ifs <;>
    simp_all [List.mem_append]

/-- The classification pass only appends to the `solTxs` accumulator. -/
theorem mem_solTxs_foldl (l : List Trade) (acc : BuildAcc)
    (s : SolTransaction) (hs : s ∈ acc.solTxs) :
    s ∈ (l.foldl processTradeStep acc).solTxs := by
  induction l generalizing acc with
  | nil => exact hs
  | cons hd rest ih => exact ih _ (mem_solTxs_step acc hd s hs)

/-- Every native inbound transfer in the processed list leaves a
`SolTransaction` in the accumulator, classified cashback iff the cashback
address is among its involved addresses. -/
theorem transfer_in_pushed (l : List Trade) (acc : BuildAcc) (t : Trade)
    (ht : t ∈ l) (htype : t.type = TradeType.transfer_in)
    (hmint : t.toAmount.mint = WSOL_MINT) :
    ∃ s ∈ (l.foldl processTradeStep acc).solTxs,
      s.signature = t.signature ∧ s.amount = t.toAmount.amount ∧
      s.type = (if CASHBACK_ADDRESS ∈ t.involvedAddresses.getD []
        then SolTxType.cashback else SolTxType.deposit) := by
  induction l generalizing acc with
  | nil => cases ht
  | cons hd rest ih =>
    rcases List.mem_cons.mp ht with heq | hmem
    · subst heq
      have hpush : ∃ s ∈ (processTradeStep acc t).solTxs,
          s.signature = t.signature ∧ s.amount = t.toAmount.amount ∧
          s.type = (if CASHBACK_ADDRESS ∈ t.involvedAddresses.getD []
            then SolTxType.cashback else SolTxType.deposit) := by
        unfold processTradeStep
        rw [htype]
        dsimp only
        rw [if_pos hmint]
        dsimp only
        refine ⟨_, List.mem_append_right _ (List.mem_singleton_self _),
          rfl, rfl, ?_⟩
        by_cases hmem2 : CASHBACK_ADDRESS ∈ t.involvedAddresses.getD []
        · simp [findKnown_singleton, hmem2]
        · simp [findKnown_singleton, hmem2]
      obtain ⟨s, hsmem, hprops⟩ := hpush
      exact ⟨s, mem_solTxs_foldl rest _ s hsmem, hprops⟩
    · exact ih (processTradeStep acc hd) hmem

/-- Folding `+ amount` is summing the amounts. -/
theorem foldl_add_amount (l : List SolTransaction) (a : ℚ) :
    l.foldl (fun sum t => sum + t.amount) a =
      a + (l.map (fun t => t.amount)).sum := by
  induction l generalizing a with
  | nil => simp
  | cons hd rest ih => simp [ih, add_assoc]

/-- C6: a native inbound transfer whose involved addresses contain the
reserved cashback address is classified `cashback` (otherwise `deposit`),
and `totalDeposited` sums exactly the deposit-classified transfers while
`totalCashback` sums exactly the cashback-classified ones, so a cashback
amount is excluded from `totalDeposited` and counted in `totalCashback`. -/
theorem reward_classification (trades : List Trade) (t : Trade)
    (ht : t ∈ trades) (htype : t.type = TradeType.transfer_in)
    (hmint : t.toAmount.mint = WSOL_MINT) :
    (∃ s ∈ (processTrades trades).solTransactions,
      s.signature = t.signature ∧ s.amount = t.toAmount.amount ∧
      s.type = (if CASHBACK_ADDRESS ∈ t.involvedAddresses.getD []
        then SolTxType.cashback else SolTxType.deposit))
    ∧ (processTrades trades).totalDeposited =
        (((processTrades trades).solTransactions.filter
          (fun s => s.type = SolTxType.deposit)).map (fun s => s.amount)).sum
    ∧ (processTrades trades).totalCashback =
        (((processTrades trades).solTransactions.filter
          (fun s => s.type = SolTxType.cashback)).map (fun s => s.amount)).sum := by
  refine ⟨?_, ?_, ?_⟩
  · have htSorted : t ∈ trades.mergeSort (fun a b => a.blockTime ≤ b.blockTime) :=
      (List.Perm.mem_iff (List.mergeSort_perm _ _)).mpr ht
    obtain ⟨s0, hs0, hsig, hamt, hty⟩ :=
      transfer_in_pushed _ ⟨[], [], []⟩ t htSorted htype hmint
    have hs0' : s0 ∈ (buildAcc trades).solTxs := hs0
    refine ⟨{ s0 with solBalanceAfter := bmGet (balanceMapOf trades) s0.signature },
      ?_, hsig, hamt, hty⟩
    simp only [processTrades]
    rw [List.Perm.mem_iff (List.mergeSort_perm _ _)]
    exact List.mem_map.mpr ⟨s0, hs0', rfl⟩
  · simp only [processTrades]
    rw [foldl_add_amount, zero_add]
  · simp only [processTrades]
    rw [foldl_add_amount, zero_add]

/-- C6, witness: the classification law applied to a 7 SOL transfer whose
counterparty is the cashback address. -/
theorem reward_classification_witness :
    (∃ s ∈ (processTrades [cashbackTrade]).solTransactions,
      s.signature = cashbackTrade.signature
      ∧ s.amount = cashbackTrade.toAmount.amount
      ∧ s.type = (if CASHBACK_ADDRESS ∈ cashbackTrade.involvedAddresses.getD []
          then SolTxType.cashback else SolTxType.deposit))
    ∧ (processTrades [cashbackTrade]).totalDeposited =
        (((processTrades [cashbackTrade]).solTransactions.filter
          (fun s => s.type = SolTxType.deposit)).map (fun s => s.amount)).sum
    ∧ (processTrades [cashbackTrade]).totalCashback =
        (((processTrades [cashbackTrade]).solTransactions.filter
          (fun s => s.type = SolTxType.cashback)).map (fun s => s.amount)).sum :=
  reward_classification [cashbackTrade] cashbackTrade
    (List.mem_singleton_self _) rfl rfl

/-- Setting a key and reading it back yields the written value. -/
theorem bmGet_bmSet_self (m : List (String × ℚ)) (k : String) (v : ℚ) :
    bmGet (bmSet m k v) k = some v := by
  unfold bmSet bmGet
  by_cases h : (m.find? (fun e => e.1 = k)).isSome
  · rw [if_pos h]
    rw [List.find?_map]
    have hp : ((fun e : String × ℚ => decide (e.1 = k)) ∘
        (fun e : String × ℚ => if e.1 = k then (e.1, v) else e)) =
        (fun e : String × ℚ => decide (e.1 = k)) := by
      funext e
      by_cases he : e.1 = k <;> simp [he]
    rw [hp]
    obtain ⟨e0, he0⟩ := Option.isSome_iff_exists.mp h
    have hk := List.find?_some he0
    simp only [decide_eq_true_eq] at hk
    rw [he0]
    simp [hk]
  · rw [if_neg h]
    rw [List.find?_append]
    rw [Option.not_isSome_iff_eq_none.mp h]
    simp

/-- Setting one key leaves lookups of a different key unchanged. -/
theorem bmGet_bmSet_ne (m : List (String × ℚ)) (k k' : String) (v : ℚ)
    (hne : ¬ k = k') :
    bmGet (bmSet m k' v) k = bmGet m k := by
  unfold bmSet bmGet
  by_cases h : (m.find? (fun e => e.1 = k')).isSome
  · rw [if_pos h]
    rw [List.find?_map]
    have hp : ((fun e : String × ℚ => decide (e.1 = k)) ∘
        (fun e : String × ℚ => if e.1 = k' then (e.1, v) else e)) =
        (fun e : String × ℚ => decide (e.1 = k)) := by
      funext e
      by_cases he : e.1 = k' <;> simp [he]
    rw [hp]
    cases hfind : m.find? (fun e => e.1 = k) with
    | none => simp
    | some e0 =>
      have hk := List.find?_some hfind
      simp only [decide_eq_true_eq] at hk
      have : ¬ e0.1 = k' := fun hc => hne (hk ▸ hc)
      simp [this]
  · rw [if_neg h]
    rw [List.find?_append]
    have hne' : ¬ k' = k := fun hc => hne hc.symm
    cases hfind : m.find? (fun e => e.1 = k) with
    | none => simp [hne']
    | some e0 => simp

/-- A signature that appears in no movement is untouched by the
running-balance fold. -/
theorem buildBalanceMap_unseen (ms : List SolMovement) (bal : ℚ)
    (m : List (String × ℚ)) (sig : String)
    (hsig : sig ∉ ms.map (fun mv => mv.signature)) :
    bmGet (buildBalanceMap ms bal m) sig = bmGet m sig := by
  induction ms generalizing bal m with
  | nil => rfl
  | cons mv rest ih =>
    simp only [List.map_cons, List.mem_cons, not_or] at hsig
    rw [buildBalanceMap, ih _ _ hsig.2, bmGet_bmSet_ne _ _ _ _ hsig.1]

/-- The balance recorded for the last movement's signature is the total sum
of all signed changes. -/
theorem buildBalanceMap_last (ms : List SolMovement) (bal : ℚ)
    (m : List (String × ℚ)) (mlast : SolMovement)
    (hlast : ms.getLast? = some mlast) :
    bmGet (buildBalanceMap ms bal m) mlast.signature =
      some (bal + (ms.map (fun mv => mv.change)).sum) := by
  induction ms generalizing bal m with
  | nil => cases hlast
  | cons mv rest ih =>
    cases rest with
    | nil =>
      have : mv = mlast := by
        simpa using hlast
      subst this
      rw [buildBalanceMap, buildBalanceMap, bmGet_bmSet_self]
      simp
    | cons r rs =>
      rw [List.getLast?_cons_cons] at hlast
      rw [buildBalanceMap, ih _ _ hlast]
      simp [add_assoc]

/-- When all movement signatures are distinct, the balance recorded for the
i-th movement's signature is the prefix sum through index i. -/
theorem buildBalanceMap_nodup_get (ms : List SolMovement) (bal : ℚ)
    (m : List (String × ℚ))
    (hnd : (ms.map (fun mv => mv.signature)).Nodup)
    (i : ℕ) (h : i < ms.length) :
    bmGet (buildBalanceMap ms bal m) ((ms.get ⟨i, h⟩).signature) =
      some (bal + ((ms.take (i + 1)).map (fun mv => mv.change)).sum) := by
  induction ms generalizing bal m i with
  | nil => cases h
  | cons mv rest ih =>
    rw [List.map_cons, List.nodup_cons] at hnd
    cases i with
    | zero =>
      rw [show ((mv :: rest).get ⟨0, h⟩) = mv from rfl]
      rw [buildBalanceMap, buildBalanceMap_unseen _ _ _ _ hnd.1,
        bmGet_bmSet_self]
      simp
    | succ j =>
      have hj : j < rest.length := Nat.lt_of_succ_lt_succ h
      have := ih (bal + mv.change) (bmSet m mv.signature (bal + mv.change))
        hnd.2 j hj
      rw [buildBalanceMap]
      rw [show ((mv :: rest).get ⟨j + 1, h⟩) = rest.get ⟨j, hj⟩ from rfl]
      rw [this]
      simp [add_assoc]

/-- A transaction found in a group after `addTokenTx` was either already in
some group or is the newly appended transaction. -/
theorem addTokenTx_mem (m : List (String × List TokenTransaction))
    (mint : String) (tx0 : TokenTransaction)
    (e' : String × List TokenTransaction) (he' : e' ∈ addTokenTx m mint tx0)
    (tx : TokenTransaction) (htx : tx ∈ e'.2) :
    (∃ e ∈ m, tx ∈ e.2) ∨ tx = tx0 := by
  unfold addTokenTx at he'
  by_cases h : (m.find? (fun e => e.1 = mint)).isSome
  · rw [if_pos h] at he'
    obtain ⟨e, hem, heq⟩ := List.mem_map.mp he'
    by_cases hk : e.1 = mint
    · rw [if_pos hk] at heq
      rw [← heq] at htx
      rcases List.mem_append.mp htx with hold | hnew
      · exact Or.inl ⟨e, hem, hold⟩
      · exact Or.inr (by simpa using hnew)
    · rw [if_neg hk] at heq
      rw [← heq] at htx
      exact Or.inl ⟨e, hem, htx⟩
  · rw [if_neg h] at he'
    rcases List.mem_append.mp he' with hm | hsing
    · exact Or.inl ⟨e', hm, htx⟩
    · have he'' : e' = (mint, [tx0]) := by simpa using hsing
      rw [he''] at htx
      exact Or.inr (by simpa using htx)

/-- One classification step preserves the invariant that every recorded
event signature occurs among the movement signatures. -/
theorem step_sig_invariant (acc : BuildAcc) (t : Trade)
    (h1 : ∀ s ∈ acc.solTxs,
      s.signature ∈ acc.movements.map (fun mv => mv.signature))
    (h2 : ∀ e ∈ acc.tokenTrades, ∀ tx ∈ e.2,
      tx.signature ∈ acc.movements.map (fun mv => mv.signature)) :
    (∀ s ∈ (processTradeStep acc t).solTxs,
      s.signature ∈ (processTradeStep acc t).movements.map
        (fun mv => mv.signature))
    ∧ (∀ e ∈ (processTradeStep acc t).tokenTrades, ∀ tx ∈ e.2,
      tx.signature ∈ (processTradeStep acc t).movements.map
        (fun mv => mv.signature)) := by
  unfold processTradeStep
  cases t.type with
  | swap =>
    dsimp only
    split_ifs with hc hd
    · exact ⟨h1, h2⟩
    · constructor
      · intro s hs
        simp only [List.map_append]
        exact List.mem_append_left _ (h1 s hs)
      · intro e he tx htx
        rcases addTokenTx_mem _ _ _ e he tx htx with ⟨e0, he0, htx0⟩ | htxeq
        · simp only [List.map_append]
          exact List.mem_append_left _ (h2 e0 he0 tx htx0)
        · subst htxeq
          simp
    · constructor
      · intro s hs
        simp only [List.map_append]
        exact List.mem_append_left _ (h1 s hs)
      · intro e he tx htx
        rcases addTokenTx_mem _ _ _ e he tx htx with ⟨e0, he0, htx0⟩ | htxeq
        · simp only [List.map_append]
          exact List.mem_append_left _ (h2 e0 he0 tx htx0)
        · subst htxeq
          simp
  | transfer_in =>
    dsimp only
    split_ifs with hc hd
    · constructor
      · intro s hs
        rcases List.mem_append.mp hs with hold | hnew
        · simp only [List.map_append]
          exact List.mem_append_left _ (h1 s hold)
        · obtain rfl := List.mem_singleton.mp hnew
          simp
      · intro e he tx htx
        simp only [List.map_append]
        exact List.mem_append_left _ (h2 e he tx htx)
    · constructor
      · intro s hs
        rcases List.mem_append.mp hs with hold | hnew
        · simp only [List.map_append]
          exact List.mem_append_left _ (h1 s hold)
        · obtain rfl := List.mem_singleton.mp hnew
          simp
      · intro e he tx htx
        simp only [List.map_append]
        exact List.mem_append_left _ (h2 e he tx htx)
    · exact ⟨h1, h2⟩
  | transfer_out =>
    dsimp only
    split_ifs with hc
    · constructor
      · intro s hs
        rcases List.mem_append.mp hs with hold | hnew
        · simp only [List.map_append]
          exact List.mem_append_left _ (h1 s hold)
        · obtain rfl := List.mem_singleton.mp hnew
          simp
      · intro e he tx htx
        simp only [List.map_append]
        exact List.mem_append_left _ (h2 e he tx htx)
    · exact ⟨h1, h2⟩

/-- The classification pass preserves the signature invariant. -/
theorem build_sig_invariant (l : List Trade) (acc : BuildAcc)
    (h1 : ∀ s ∈ acc.solTxs,
      s.signature ∈ acc.movements.map (fun mv => mv.signature))
    (h2 : ∀ e ∈ acc.tokenTrades, ∀ tx ∈ e.2,
      tx.signature ∈ acc.movements.map (fun mv => mv.signature)) :
    (∀ s ∈ (l.foldl processTradeStep acc).solTxs,
      s.signature ∈ (l.foldl processTradeStep acc).movements.map
        (fun mv => mv.signature))
    ∧ (∀ e ∈ (l.foldl processTradeStep acc).tokenTrades, ∀ tx ∈ e.2,
      tx.signature ∈ (l.foldl processTradeStep acc).movements.map
        (fun mv => mv.signature)) := by
  induction l generalizing acc with
  | nil => exact ⟨h1, h2⟩
  | cons hd rest ih =>
    have hstep := step_sig_invariant acc hd h1 h2
    exact ih _ hstep.1 hstep.2

/-- Every output transfer is an accumulator transfer with the balance
looked up under its signature attached. -/
theorem solTx_output_structure (trades : List Trade) (s : SolTransaction)
    (hs : s ∈ (processTrades trades).solTransactions) :
    ∃ s0 ∈ (buildAcc trades).solTxs,
      s.signature = s0.signature ∧
      s.solBalanceAfter = bmGet (balanceMapOf trades) s0.signature := by
  simp only [processTrades] at hs
  rw [List.Perm.mem_iff (List.mergeSort_perm _ _)] at hs
  obtain ⟨s0, hs0, heq⟩ := List.mem_map.mp hs
  refine ⟨s0, hs0, ?_, ?_⟩ <;> rw [← heq]

/-- Every leg of an output position is an accumulator token transaction
with the balance looked up under its signature attached. -/
theorem leg_output_structure (trades : List Trade) (u : UnifiedTrade)
    (hu : u ∈ (processTrades trades).unifiedTrades)
    (tx : TokenTransaction) (htx : tx ∈ u.transactions) :
    ∃ e ∈ (buildAcc trades).tokenTrades, ∃ tx0 ∈ e.2,
      tx.signature = tx0.signature ∧
      tx.solBalanceAfter = bmGet (balanceMapOf trades) tx0.signature := by
  simp only [processTrades] at hu
  rw [List.Perm.mem_iff (List.mergeSort_perm _ _)] at hu
  obtain ⟨e1, he1, hequ⟩ := List.mem_map.mp hu
  obtain ⟨e0, he0, heq1⟩ := List.mem_map.mp he1
  rw [← hequ] at htx
  have htx1 : tx ∈ e1.2 :=
    (List.Perm.mem_iff (List.mergeSort_perm _ _)).mp htx
  rw [← heq1] at htx1
  obtain ⟨tx0, htx0, heq2⟩ := List.mem_map.mp htx1
  refine ⟨e0, he0, tx0, htx0, ?_, ?_⟩ <;> rw [← heq2]

/-- C2 (amended): in the ascending movement timeline, provided every
movement carries a distinct transaction signature, each output transfer and
each output buy/sell leg carries as its attached running balance the prefix
sum of all signed native deltas up to and including its own movement; and
unconditionally the balance recorded for the last movement's signature is
the sum of all signed native deltas.  (Balances are attached by looking the
signature up in a per-signature map, so when several movements share one
signature every event with that signature receives the balance after the
LAST of them — see the counterexample.) -/
theorem running_balance_attached (trades : List Trade) :
    (((solMovementsOf trades).map (fun mv => mv.signature)).Nodup →
      (∀ s ∈ (processTrades trades).solTransactions,
        ∃ i, ∃ h : i < (solMovementsOf trades).length,
          ((solMovementsOf trades).get ⟨i, h⟩).signature = s.signature ∧
          s.solBalanceAfter = some ((((solMovementsOf trades).take (i + 1)).map
            (fun mv => mv.change)).sum))
      ∧ (∀ u ∈ (processTrades trades).unifiedTrades, ∀ tx ∈ u.transactions,
        ∃ i, ∃ h : i < (solMovementsOf trades).length,
          ((solMovementsOf trades).get ⟨i, h⟩).signature = tx.signature ∧
          tx.solBalanceAfter = some ((((solMovementsOf trades).take (i + 1)).map
            (fun mv => mv.change)).sum)))
    ∧ (∀ mlast, (solMovementsOf trades).getLast? = some mlast →
        bmGet (balanceMapOf trades) mlast.signature =
          some (((solMovementsOf trades).map (fun mv => mv.change)).sum)) := by
  have hinv := build_sig_invariant
    (trades.mergeSort (fun a b => a.blockTime ≤ b.blockTime)) ⟨[], [], []⟩
    (by intro s hs; cases hs) (by intro e he; cases he)
  have hsig_to_idx : ∀ sig : String,
      sig ∈ (buildAcc trades).movements.map (fun mv => mv.signature) →
      ∃ i, ∃ h : i < (solMovementsOf trades).length,
        ((solMovementsOf trades).get ⟨i, h⟩).signature = sig := by
    intro sig hsig
    have hperm : List.Perm
        ((solMovementsOf trades).map (fun mv => mv.signature))
        ((buildAcc trades).movements.map (fun mv => mv.signature)) :=
      (List.mergeSort_perm _ _).map _
    have hsig2 : sig ∈ (solMovementsOf trades).map (fun mv => mv.signature) :=
      hperm.mem_iff.mpr hsig
    obtain ⟨mv, hmv, hmveq⟩ := List.mem_map.mp hsig2
    obtain ⟨⟨i, hi⟩, hget⟩ := List.mem_iff_get.mp hmv
    exact ⟨i, hi, by rw [hget, hmveq]⟩
  constructor
  · intro hnd
    have hval : ∀ (i : ℕ) (h : i < (solMovementsOf trades).length),
        bmGet (balanceMapOf trades)
          ((solMovementsOf trades).get ⟨i, h⟩).signature =
        some ((((solMovementsOf trades).take (i + 1)).map
          (fun mv => mv.change)).sum) := by
      intro i h
      have := buildBalanceMap_nodup_get (solMovementsOf trades) 0 [] hnd i h
      rwa [zero_add] at this
    constructor
    · intro s hs
      obtain ⟨s0, hs0, hsig, hbal⟩ := solTx_output_structure trades s hs
      obtain ⟨i, hlt, hgeti⟩ := hsig_to_idx s0.signature (hinv.1 s0 hs0)
      refine ⟨i, hlt, by rw [hgeti, hsig], ?_⟩
      rw [hbal, ← hgeti, hval i hlt]
    · intro u hu tx htx
      obtain ⟨e0, he0, tx0, htx0, hsig, hbal⟩ :=
        leg_output_structure trades u hu tx htx
      obtain ⟨i, hlt, hgeti⟩ := hsig_to_idx tx0.signature (hinv.2 e0 he0 tx0 htx0)
      refine ⟨i, hlt, by rw [hgeti, hsig], ?_⟩
      rw [hbal, ← hgeti, hval i hlt]
  · intro mlast hlast
    have := buildBalanceMap_last (solMovementsOf trades) 0 [] mlast hlast
    rwa [zero_add] at this

set_option maxRecDepth 8000 in
/-- C2, counterexample.  Two swap legs of one multi-hop transaction share
the signature "s".  The first processed movement is the A-buy (prefix sum
of signed deltas at its moment: -1), yet the A position's leg carries the
balance some (-2), the balance after the LAST movement with signature "s" —
the running balance is attached per signature, not per event, refuting the
claim that every leg carries the prefix sum at its own processing moment. -/
theorem running_balance_counterexample :
    (solMovementsOf [dupSwapA, dupSwapB]).map (fun mv => mv.signature) =
      ["s", "s"]
    ∧ ((solMovementsOf [dupSwapA, dupSwapB]).getD 0 junkMovement).tokenMint =
        some "A"
    ∧ (((solMovementsOf [dupSwapA, dupSwapB]).take 1).map
        (fun mv => mv.change)).sum = -1
    ∧ ((processTrades [dupSwapA, dupSwapB]).unifiedTrades.getD 0
        junkUnified).tokenMint = "A"
    ∧ (((processTrades [dupSwapA, dupSwapB]).unifiedTrades.getD 0
        junkUnified).transactions.getD 0 junkTokenTx).solBalanceAfter =
        some (-2)
    ∧ ¬ ((-2 : ℚ) = -1) := by
  refine ⟨?_, ?_, ?_, ?_, ?_, by norm_num⟩ <;>
    · simp [processTrades, buildAcc, processTradeStep, addTokenTx, findKnown,
        KNOWN_ADDRESSES, solMovementsOf, balanceMapOf, buildBalanceMap, bmSet,
        bmGet, mkUnified, totalsStep, dateLe, List.mergeSort, WSOL_MINT,
        dupSwapA, dupSwapB, junkMovement, junkUnified, junkTokenTx]
      try norm_num

set_option maxRecDepth 8000 in
/-- C2, witness: the amended running-balance law applied to a single
deposit, whose movement timeline has (trivially) distinct signatures. -/
theorem running_balance_attached_witness :
    ((∀ s ∈ (processTrades [wDeposit]).solTransactions,
      ∃ i, ∃ h : i < (solMovementsOf [wDeposit]).length,
        ((solMovementsOf [wDeposit]).get ⟨i, h⟩).signature = s.signature ∧
        s.solBalanceAfter = some ((((solMovementsOf [wDeposit]).take (i + 1)).map
          (fun mv => mv.change)).sum))
    ∧ (∀ u ∈ (processTrades [wDeposit]).unifiedTrades, ∀ tx ∈ u.transactions,
      ∃ i, ∃ h : i < (solMovementsOf [wDeposit]).length,
        ((solMovementsOf [wDeposit]).get ⟨i, h⟩).signature = tx.signature ∧
        tx.solBalanceAfter = some ((((solMovementsOf [wDeposit]).take (i + 1)).map
          (fun mv => mv.change)).sum)))
    ∧ (∀ mlast, (solMovementsOf [wDeposit]).getLast? = some mlast →
        bmGet (balanceMapOf [wDeposit]) mlast.signature =
          some (((solMovementsOf [wDeposit]).map (fun mv => mv.change)).sum)) :=
  ⟨(running_balance_attached [wDeposit]).1 (by
    simp [solMovementsOf, buildAcc, processTradeStep, findKnown,
      KNOWN_ADDRESSES, List.mergeSort, WSOL_MINT, wDeposit]),
   (running_balance_attached [wDeposit]).2⟩

end SolanaTax
